import Mathlib

/-!
Shallow embedding of `neural_style_transfer.py` (a single-file neural style
transfer script) and verification of its natural-language specification.

Conventions of the embedding:
* Pixel arrays and activation tensors carry exact rational values (`ℚ`);
  the batch axis of size 1 is represented by `Fin 1`.
* The frozen VGG19 feature extractor, the Keras image decoder, TensorFlow's
  automatic differentiation and the Adam optimizer are external collaborators
  of the script; they appear as abstract fields of an environment record
  `NSTEnv`, exactly at the granularity the script calls them.
* In-place NumPy mutation (`deprocess_image`) is embedded by returning the
  mutated argument alongside the function's result.
-/

/-- A decoded H×W RGB pixel array with rational entries
(`img_to_array` output, channel axis of size 3). -/
abbrev Pix (H W : ℕ) : Type := Fin H → Fin W → Fin 3 → ℚ

/-- A (batch-squeezed) activation map of spatial size h×w with c channels. -/
abbrev ActT (h w c : ℕ) : Type := Fin h → Fin w → Fin c → ℚ

/-- A 2D rational matrix, as used after the unrolling step of the style loss. -/
abbrev Mat (m n : ℕ) : Type := Fin m → Fin n → ℚ

/-- `tf.matmul` on 2D matrices. -/
def matmul {m n p : ℕ} (A : Mat m n) (B : Mat n p) : Mat m p :=
  fun i k => ∑ j, A i j * B j k

/-- `tf.transpose` on 2D matrices (also `perm = [1, 0]`). -/
def matT {m n : ℕ} (A : Mat m n) : Mat n m :=
  fun j i => A i j

/-- `tf.reduce_mean` of a 2D tensor: sum of all entries over their count. -/
def reduce_mean_mat {m n : ℕ} (M : Mat m n) : ℚ :=
  (∑ i, ∑ j, M i j) / ((m : ℚ) * (n : ℕ))

/-- `tf.reduce_mean` of an activation tensor (batch axis of size 1 dropped:
its element count is unchanged). -/
def reduce_mean {h w c : ℕ} (A : ActT h w c) : ℚ :=
  (∑ i, ∑ j, ∑ k, A i j k) / ((h : ℚ) * (w : ℕ) * (c : ℕ))

/-- Source `gram_matrix`: `GM = tf.matmul(A, tf.transpose(A))`. -/
def gram_matrix {m n : ℕ} (A : Mat m n) : Mat m m :=
  matmul A (matT A)

/-- Source `tf.reshape(a, shape=[n_H * n_W, n_C])` on a (1,h,w,c) tensor:
row-major flattening of the two spatial axes. -/
def reshape_unroll {h w c : ℕ} (A : ActT h w c) : Mat (h * w) c :=
  fun p k =>
    have hw : 0 < w := by
      rcases Nat.eq_zero_or_pos w with hz | hpos
      · exact absurd p.isLt (by simp [hz])
      · exact hpos
    A ⟨p.val / w, (Nat.div_lt_iff_lt_mul hw).mpr p.isLt⟩ ⟨p.val % w, Nat.mod_lt _ hw⟩ k

/-- The per-BGR-channel VGG19 means used by `deprocess_image`
(and, reversed into RGB reading order, by Keras' `preprocess_input`). -/
def vgg_means : Fin 3 → ℚ := ![103.939, 116.779, 123.68]

/-- Modelled from the spec: the external Keras VGG19 `preprocess_input`
(Image Codec Adapter, §6) — RGB→BGR channel-order reversal followed by
per-channel mean subtraction. -/
def preprocess_input {H W : ℕ} (x : Pix H W) : Pix H W :=
  fun i j k => x i j (Fin.rev k) - vgg_means k

/-- Source `load_and_process_image`: decode (`load_img`/`img_to_array`,
external — embedded as receiving the already-decoded raw pixel array),
apply `preprocess_input`, then `np.expand_dims(image, axis=0)`. -/
def load_and_process_image {H W : ℕ} (raw : Pix H W) : Fin 1 → Pix H W :=
  let image := preprocess_input raw
  fun _b => image

/-- Clip to [0,255] and convert to `uint8` (`np.clip(x, 0, 255).astype('uint8')`);
after the clip the float is non-negative, so the cast truncates to the floor. -/
def clip_to_uint8 (v : ℚ) : ℕ :=
  (⌊max 0 (min 255 v)⌋).toNat

/-- Source `deprocess_image`. The three `x[:,:,k] += mean` statements mutate
the argument in place; the embedding returns the mutated argument as the
first component and the function's result (channel-reversed, clipped,
`uint8`-cast array) as the second. -/
def deprocess_image {H W : ℕ} (x : Pix H W) : Pix H W × (Fin H → Fin W → Fin 3 → ℕ) :=
  let x1 : Pix H W := fun i j k => x i j k + vgg_means k
  let x2 : Pix H W := fun i j k => x1 i j (Fin.rev k)
  (x1, fun i j k => clip_to_uint8 (x2 i j k))

/-- The fixed path constants of the script's `CONFIG` class. -/
def CONFIG.CONTENT_IMAGE : String := "/content/drive/My Drive/Colab Notebooks/NST/lotus-1.jpg"

/-- Style image path of the script's `CONFIG` class. -/
def CONFIG.STYLE_IMAGE : String := "/content/drive/My Drive/Colab Notebooks/NST/style.jpg"

/-- Source `style_coeff = [0.5, 0.6, 0.8, 0.8, 0.5]`. -/
def style_coeff : Fin 5 → ℚ := ![0.5, 0.6, 0.8, 0.8, 0.5]

/-- The external collaborators the script uses, at call granularity:
the image decoder+preprocessor, the frozen VGG19 content/style submodels
(`content_model`, `style_models`), TensorFlow's gradient tape, and the Adam
optimizer (opaque state of type `OptState`). -/
structure NSTEnv (Img OptState : Type) where
  loadAndProcessImage : String → Img
  hC : ℕ
  wC : ℕ
  cC : ℕ
  content_model : Img → ActT hC wC cC
  sH : Fin 5 → ℕ
  sW : Fin 5 → ℕ
  sC : Fin 5 → ℕ
  style_model : (i : Fin 5) → Img → ActT (sH i) (sW i) (sC i)
  tape_gradient : ℚ → ℚ → Img → Img → Img → Img
  adam : ℚ → OptState
  apply_gradients : OptState → Img → Img → OptState × Img

/-- Source `content_cost`: evaluate `content_model` on both images and
return `0.05 * tf.reduce_mean(tf.square(a_C - a_G))`. -/
def content_cost {Img OptState : Type} (env : NSTEnv Img OptState)
    (content_image generated_image : Img) : ℚ :=
  let a_C := env.content_model content_image
  let a_G := env.content_model generated_image
  0.05 * reduce_mean (fun i j k => (a_C i j k - a_G i j k) ^ 2)

/-- The body of the `style_cost` loop for layer `i`: unroll both activation
maps to (channels × spatial-positions), take Gram matrices, and return
`1/4 * 1/np.square(n_C) * 1/np.square(n_H*n_W) * tf.reduce_mean(tf.square(GMS - GMG))`. -/
def current_style_cost {Img OptState : Type} (env : NSTEnv Img OptState)
    (i : Fin 5) (style_image generated_image : Img) : ℚ :=
  let a_S := env.style_model i style_image
  let a_G := env.style_model i generated_image
  let a_S_unrolled := matT (reshape_unroll a_S)
  let a_G_unrolled := matT (reshape_unroll a_G)
  let GMS := gram_matrix a_S_unrolled
  let GMG := gram_matrix a_G_unrolled
  1/4 * (1/((env.sC i : ℚ)^2)) * (1/(((env.sH i * env.sW i : ℕ) : ℚ)^2)) *
    reduce_mean_mat (fun a b => (GMS a b - GMG a b) ^ 2)

/-- Source `style_cost`: fold over the five style layers, accumulating
`style_coeff[i] * current_style_cost` into `total_style_cost` (initially 0). -/
def style_cost {Img OptState : Type} (env : NSTEnv Img OptState)
    (style_image generated_image : Img) : ℚ :=
  (List.finRange 5).foldl
    (fun total_style_cost i =>
      total_style_cost + style_coeff i * current_style_cost env i style_image generated_image)
    0

/-- Spec-side per-layer style term (§4.2, following the spec's words):
reshape each activation map to a 2D matrix of (channels × spatial-positions),
compute its Gram matrix, take the mean squared difference between the style
and generated Gram matrices, and normalize by `1/(4 * channels^2 * spatial_positions^2)`. -/
def spec_layer_style_cost {Img OptState : Type} (env : NSTEnv Img OptState)
    (i : Fin 5) (style_image generated_image : Img) : ℚ :=
  let MS : Mat (env.sC i) (env.sH i * env.sW i) :=
    fun k p => reshape_unroll (env.style_model i style_image) p k
  let MG : Mat (env.sC i) (env.sH i * env.sW i) :=
    fun k p => reshape_unroll (env.style_model i generated_image) p k
  (1 / (4 * (env.sC i : ℚ)^2 * (((env.sH i * env.sW i : ℕ)) : ℚ)^2)) *
    reduce_mean_mat (fun a b => (gram_matrix MS a b - gram_matrix MG a b) ^ 2)

/-- Spec-side style loss (§4.2): weighted sum of the per-layer terms
across the configured layers. -/
def spec_style_cost {Img OptState : Type} (env : NSTEnv Img OptState)
    (style_image generated_image : Img) : ℚ :=
  ∑ i : Fin 5, style_coeff i * spec_layer_style_cost env i style_image generated_image

/-- The mutable state of the `train` loop: the `tf.Variable` generated image,
the Adam optimizer state, and the two result lists. -/
structure TrainState (Img OptState : Type) where
  generated_image : Img
  opt : OptState
  generated_images : List Img
  costs : List ℚ

/-- The pre-loop part of `train`: preprocess the CONFIG content image into the
`tf.Variable`, build the Adam optimizer, and start with empty result lists. -/
def trainInit {Img OptState : Type} (env : NSTEnv Img OptState) (lr : ℚ) :
    TrainState Img OptState :=
  { generated_image := env.loadAndProcessImage CONFIG.CONTENT_IMAGE
    opt := env.adam lr
    generated_images := []
    costs := [] }

/-- One iteration of the `train` loop at index `i`: compute the losses on the
current generated image, combine them with `alpha`/`beta`, take the gradient
(external tape), apply one Adam update, append `J_total` to `costs`, and at
checkpoint iterations (`i % 200 == 0`) append the updated tensor to
`generated_images`. -/
def trainStep {Img OptState : Type} (env : NSTEnv Img OptState) (alpha beta : ℚ)
    (content_image_preprocessed style_image_preprocessed : Img)
    (st : TrainState Img OptState) (i : ℕ) : TrainState Img OptState :=
  let J_content := content_cost env content_image_preprocessed st.generated_image
  let J_style := style_cost env style_image_preprocessed st.generated_image
  let J_total := alpha * J_content + beta * J_style
  let grads := env.tape_gradient alpha beta content_image_preprocessed
    style_image_preprocessed st.generated_image
  let updated := env.apply_gradients st.opt grads st.generated_image
  { generated_image := updated.2
    opt := updated.1
    generated_images :=
      if i % 200 = 0 then st.generated_images ++ [updated.2] else st.generated_images
    costs := st.costs ++ [J_total] }

/-- Source `train`. Its `content_image`/`style_image` parameters are accepted
with arbitrary types, exactly as Python does; the body loads the images from
the fixed `CONFIG` paths instead. Returns `(generated_images, costs)`. -/
def train {Img OptState A B : Type} (env : NSTEnv Img OptState)
    (content_image : A) (style_image : B)
    (alpha beta : ℚ) (Iterations : ℕ) (lr : ℚ) : List Img × List ℚ :=
  let content_image_preprocessed := env.loadAndProcessImage CONFIG.CONTENT_IMAGE
  let style_image_preprocessed := env.loadAndProcessImage CONFIG.STYLE_IMAGE
  let final := (List.range Iterations).foldl
    (trainStep env alpha beta content_image_preprocessed style_image_preprocessed)
    (trainInit env lr)
  (final.generated_images, final.costs)

/-- The loop state after `i` iterations of `train` (same fold as `train`). -/
def trainStateAt {Img OptState : Type} (env : NSTEnv Img OptState)
    (alpha beta lr : ℚ) (i : ℕ) : TrainState Img OptState :=
  (List.range i).foldl
    (trainStep env alpha beta (env.loadAndProcessImage CONFIG.CONTENT_IMAGE)
      (env.loadAndProcessImage CONFIG.STYLE_IMAGE))
    (trainInit env lr)

/-- The `J_content` value computed during iteration `i` of `train`. -/
def J_content_at {Img OptState : Type} (env : NSTEnv Img OptState)
    (alpha beta lr : ℚ) (i : ℕ) : ℚ :=
  content_cost env (env.loadAndProcessImage CONFIG.CONTENT_IMAGE)
    (trainStateAt env alpha beta lr i).generated_image

/-- The `J_style` value computed during iteration `i` of `train`. -/
def J_style_at {Img OptState : Type} (env : NSTEnv Img OptState)
    (alpha beta lr : ℚ) (i : ℕ) : ℚ :=
  style_cost env (env.loadAndProcessImage CONFIG.STYLE_IMAGE)
    (trainStateAt env alpha beta lr i).generated_image

/-- The `J_total` value computed during iteration `i` of `train`. -/
def J_total_at {Img OptState : Type} (env : NSTEnv Img OptState)
    (alpha beta lr : ℚ) (i : ℕ) : ℚ :=
  alpha * J_content_at env alpha beta lr i + beta * J_style_at env alpha beta lr i

/-- A tiny concrete environment (one-pixel images, 1×1×1 activations):
the preprocessed content image is the scalar 0 and the style image 1, every
model echoes its input everywhere, gradients are 0 and the Adam step applies
the plain update `v - grads`. -/
def envA : NSTEnv ℚ Unit where
  loadAndProcessImage := fun p => if p = CONFIG.CONTENT_IMAGE then 0 else 1
  hC := 1
  wC := 1
  cC := 1
  content_model := fun x _ _ _ => x
  sH := fun _ => 1
  sW := fun _ => 1
  sC := fun _ => 1
  style_model := fun _ x _ _ _ => x
  tape_gradient := fun _ _ _ _ _ => 0
  adam := fun _ => ()
  apply_gradients := fun s grads v => (s, v - grads)

/-- Same as `envA` except that every style layer returns the all-zero
activation map, so its per-iteration `J_style` differs from `envA`'s. -/
def envB : NSTEnv ℚ Unit where
  loadAndProcessImage := fun p => if p = CONFIG.CONTENT_IMAGE then 0 else 1
  hC := 1
  wC := 1
  cC := 1
  content_model := fun x _ _ _ => x
  sH := fun _ => 1
  sW := fun _ => 1
  sC := fun _ => 1
  style_model := fun _ _ _ _ _ => 0
  tape_gradient := fun _ _ _ _ _ => 0
  adam := fun _ => ()
  apply_gradients := fun s grads v => (s, v - grads)

/-- A divergent environment: images are `Option ℚ` scalars with `none`
standing for a non-finite (NaN/Inf) float value. The gradient tape always
returns a non-finite gradient and the optimizer update propagates it into
the generated tensor, as IEEE arithmetic does. -/
def envDiv : NSTEnv (Option ℚ) Unit where
  loadAndProcessImage := fun _ => some 0
  hC := 1
  wC := 1
  cC := 1
  content_model := fun x _ _ _ => x.getD 0
  sH := fun _ => 1
  sW := fun _ => 1
  sC := fun _ => 1
  style_model := fun _ x _ _ _ => x.getD 0
  tape_gradient := fun _ _ _ _ _ => none
  adam := fun _ => ()
  apply_gradients := fun s grads v =>
    (s, v.bind (fun vv => grads.map (fun gg => vv - gg)))

/-- Concrete 1×1 raw pixel array with the integer value 7 in every channel. -/
def rawSeven : Pix 1 1 := fun _ _ _ => 7

/-- Concrete all-zero 1×1 pixel array. -/
def pixZero : Pix 1 1 := fun _ _ _ => 0

/-- Folding `acc + f i` over a list from `a` computes `a` plus the sum of `f`. -/
theorem foldl_add_map {α : Type} (f : α → ℚ) (l : List α) :
    ∀ a : ℚ, List.foldl (fun acc i => acc + f i) a l = a + (l.map f).sum := by
  induction l with
  | nil => intro a; simp
  | cons x xs ih => intro a; simp [ih, add_assoc]

/-- The `style_cost` accumulator loop computes the weighted sum over the
five configured layers. -/
theorem style_cost_eq_sum {Img OptState : Type} (env : NSTEnv Img OptState) (s g : Img) :
    style_cost env s g = ∑ i : Fin 5, style_coeff i * current_style_cost env i s g := by
  rw [style_cost, foldl_add_map (fun i => style_coeff i * current_style_cost env i s g),
    Fin.sum_univ_def]
  simp

/-- `tf.reduce_mean` of an elementwise square is non-negative. -/
theorem reduce_mean_mat_sq_nonneg {m n : ℕ} (f : Fin m → Fin n → ℚ) :
    0 ≤ reduce_mean_mat (fun a b => (f a b) ^ 2) := by
  rw [reduce_mean_mat]
  apply div_nonneg
  · exact Finset.sum_nonneg fun i _ => Finset.sum_nonneg fun j _ => sq_nonneg _
  · positivity

/-- Each per-layer style term is non-negative. -/
theorem current_style_cost_nonneg {Img OptState : Type} (env : NSTEnv Img OptState)
    (i : Fin 5) (s g : Img) : 0 ≤ current_style_cost env i s g := by
  simp only [current_style_cost]
  apply mul_nonneg
  · positivity
  · exact reduce_mean_mat_sq_nonneg _

/-- Each fixed layer weight of the script is non-negative. -/
theorem style_coeff_nonneg (i : Fin 5) : 0 ≤ style_coeff i := by
  fin_cases i <;> norm_num [style_coeff]

/-- A layer whose style and generated activations agree contributes zero. -/
theorem current_style_cost_zero {Img OptState : Type} (env : NSTEnv Img OptState)
    (i : Fin 5) (s g : Img) (h : env.style_model i s = env.style_model i g) :
    current_style_cost env i s g = 0 := by
  simp [current_style_cost, h, reduce_mean_mat]

/-- Unfolding one iteration of the training fold. -/
theorem trainStateAt_succ {Img OptState : Type} (env : NSTEnv Img OptState)
    (alpha beta lr : ℚ) (n : ℕ) :
    trainStateAt env alpha beta lr (n + 1) =
      trainStep env alpha beta (env.loadAndProcessImage CONFIG.CONTENT_IMAGE)
        (env.loadAndProcessImage CONFIG.STYLE_IMAGE)
        (trainStateAt env alpha beta lr n) n := by
  unfold trainStateAt
  rw [List.range_succ, List.foldl_append]
  rfl

/-- `train` returns exactly the two result lists of the final loop state. -/
theorem train_eq_trainStateAt {Img OptState A B : Type} (env : NSTEnv Img OptState)
    (c : A) (s : B) (alpha beta lr : ℚ) (N : ℕ) :
    train env c s alpha beta N lr =
      ((trainStateAt env alpha beta lr N).generated_images,
       (trainStateAt env alpha beta lr N).costs) := rfl

/-- After `n` iterations the cost history is the list of the per-iteration
`J_total` values, in iteration order. -/
theorem trainStateAt_costs {Img OptState : Type} (env : NSTEnv Img OptState)
    (alpha beta lr : ℚ) : ∀ n : ℕ,
    (trainStateAt env alpha beta lr n).costs =
      (List.range n).map (J_total_at env alpha beta lr) := by
  intro n
  induction n with
  | zero => rfl
  | succ k ih =>
    rw [trainStateAt_succ]
    simp [trainStep, ih, List.range_succ, J_total_at, J_content_at, J_style_at]

/-- After `n` iterations the snapshot list has one entry per checkpoint
iteration, i.e. `⌈n / 200⌉` entries. -/
theorem trainStateAt_snapshots_length {Img OptState : Type} (env : NSTEnv Img OptState)
    (alpha beta lr : ℚ) : ∀ n : ℕ,
    (trainStateAt env alpha beta lr n).generated_images.length = (n + 199) / 200 := by
  intro n
  induction n with
  | zero => rfl
  | succ k ih =>
    rw [trainStateAt_succ]
    by_cases h : k % 200 = 0
    · simp [trainStep, h, ih]
      omega
    · simp [trainStep, h, ih]
      omega

/-- `content_cost` is non-negative for all inputs. -/
theorem content_cost_nonneg {Img OptState : Type} (env : NSTEnv Img OptState)
    (c g : Img) : 0 ≤ content_cost env c g := by
  rw [content_cost]
  apply mul_nonneg (by norm_num)
  rw [reduce_mean]
  apply div_nonneg
  · exact Finset.sum_nonneg fun i _ =>
      Finset.sum_nonneg fun j _ => Finset.sum_nonneg fun k _ => sq_nonneg _
  · positivity

/-- The source's chained normalization factor equals the spec's single one. -/
theorem norm_factor_eq (x y M : ℚ) :
    1/4 * (1/(x^2)) * (1/(y^2)) * M = 1 / (4 * x^2 * y^2) * M := by
  rw [div_mul_div_comm, div_mul_div_comm, div_mul_eq_mul_div]
  ring_nf

/-- Claim C8: for every 2D matrix `A` with rows = channels, `gram_matrix A`
equals `A` times its transpose; the result is symmetric, and every diagonal
entry equals the sum of squares of that channel's activations, hence is
non-negative. -/
theorem gram_matrix_spec {m n : ℕ} (A : Mat m n) :
    gram_matrix A = matmul A (matT A) ∧
    (∀ i j, gram_matrix A i j = gram_matrix A j i) ∧
    (∀ i, gram_matrix A i i = ∑ j, (A i j) ^ 2 ∧ 0 ≤ gram_matrix A i i) := by
  refine ⟨rfl, ?_, ?_⟩
  · intro i j
    simp [gram_matrix, matmul, matT, mul_comm]
  · intro i
    constructor
    · simp [gram_matrix, matmul, matT, sq]
    · simp only [gram_matrix, matmul, matT]
      exact Finset.sum_nonneg fun j _ => mul_self_nonneg _

/-- Claim C5: the content loss is 0.05 times the mean of squared elementwise
differences between the two activation maps; it is zero when the maps are
identical, always non-negative, and symmetric in its two arguments. -/
theorem content_cost_spec {Img OptState : Type} (env : NSTEnv Img OptState) (c g : Img) :
    content_cost env c g =
      0.05 * reduce_mean
        (fun i j k => (env.content_model c i j k - env.content_model g i j k) ^ 2) ∧
    (env.content_model c = env.content_model g → content_cost env c g = 0) ∧
    0 ≤ content_cost env c g ∧
    content_cost env c g = content_cost env g c := by
  refine ⟨rfl, ?_, content_cost_nonneg env c g, ?_⟩
  · intro h
    simp [content_cost, h, reduce_mean]
  · simp only [content_cost]
    have h : (fun i j k => (env.content_model c i j k - env.content_model g i j k) ^ 2)
        = (fun i j k => (env.content_model g i j k - env.content_model c i j k) ^ 2) := by
      funext i j k
      ring
    rw [h]

/-- Witness for C5 at a concrete image pair with identical activation maps. -/
theorem content_cost_spec_witness :
    envA.content_model 2 = envA.content_model 2 ∧ content_cost envA 2 2 = 0 :=
  ⟨rfl, (content_cost_spec envA 2 2).2.1 rfl⟩

/-- Claim C7: the style loss is exactly 0 when, for every configured layer,
the style and generated activation maps are identical; both the style loss
and the content loss are non-negative for all inputs. -/
theorem style_and_content_losses_spec {Img OptState : Type} (env : NSTEnv Img OptState)
    (s g : Img) :
    ((∀ i : Fin 5, env.style_model i s = env.style_model i g) → style_cost env s g = 0) ∧
    0 ≤ style_cost env s g ∧
    (∀ c gg : Img, 0 ≤ content_cost env c gg) := by
  refine ⟨?_, ?_, fun c gg => content_cost_nonneg env c gg⟩
  · intro h
    rw [style_cost_eq_sum]
    exact Finset.sum_eq_zero fun i _ => by
      rw [current_style_cost_zero env i s g (h i), mul_zero]
  · rw [style_cost_eq_sum]
    exact Finset.sum_nonneg fun i _ =>
      mul_nonneg (style_coeff_nonneg i) (current_style_cost_nonneg env i s g)

/-- Witness for C7 at a concrete image pair with identical style activations. -/
theorem style_and_content_losses_spec_witness :
    (∀ i : Fin 5, envA.style_model i 1 = envA.style_model i 1) ∧ style_cost envA 1 1 = 0 :=
  ⟨fun _ => rfl, (style_and_content_losses_spec envA 1 1).1 fun _ => rfl⟩

/-- Claim C4: `style_cost` equals the spec's formula — the sum over the five
configured layers of the layer weight times `1/(4*channels^2*positions^2)`
times the mean squared difference of the Gram matrices of the unrolled
(channels × spatial-positions) activation matrices. -/
theorem style_cost_eq_spec_formula {Img OptState : Type} (env : NSTEnv Img OptState)
    (s g : Img) : style_cost env s g = spec_style_cost env s g := by
  rw [style_cost_eq_sum, spec_style_cost]
  refine Finset.sum_congr rfl fun i _ => ?_
  congr 1
  simp only [current_style_cost, spec_layer_style_cost, matT]
  exact norm_factor_eq _ _ _

/-- Claim C9: deprocessing the preprocessed array recovers the original raw
pixel values up to clipping to [0,255] and integer rounding; on raw arrays
whose values are integers in [0,255] the recovery is exact. -/
theorem process_deprocess_inverse {H W : ℕ} (raw : Pix H W) :
    (deprocess_image (load_and_process_image raw 0)).2 =
      (fun i j k => clip_to_uint8 (raw i j k)) ∧
    ((∀ i j k, ∃ nv : ℕ, nv ≤ 255 ∧ raw i j k = (nv : ℚ)) →
      ∀ i j k, ((deprocess_image (load_and_process_image raw 0)).2 i j k : ℚ) = raw i j k) := by
  have h1 : (deprocess_image (load_and_process_image raw 0)).2 =
      (fun i j k => clip_to_uint8 (raw i j k)) := by
    funext i j k
    simp only [deprocess_image, load_and_process_image, preprocess_input]
    rw [Fin.rev_rev]
    congr 1
    ring
  refine ⟨h1, ?_⟩
  intro h i j k
  have h2 : (deprocess_image (load_and_process_image raw 0)).2 i j k =
      clip_to_uint8 (raw i j k) := by
    rw [h1]
  rw [h2]
  obtain ⟨nv, hle, hval⟩ := h i j k
  rw [hval]
  simp only [clip_to_uint8]
  rw [min_eq_right (by exact_mod_cast hle), max_eq_right (by positivity)]
  rw [Int.floor_natCast, Int.toNat_natCast]

/-- Witness for C9 at a concrete 1×1 integer-valued raw array. -/
theorem process_deprocess_inverse_witness :
    (∀ i j k, ∃ nv : ℕ, nv ≤ 255 ∧ rawSeven i j k = (nv : ℚ)) ∧
    (∀ i j k, ((deprocess_image (load_and_process_image rawSeven 0)).2 i j k : ℚ) =
      rawSeven i j k) :=
  ⟨fun _ _ _ => ⟨7, by norm_num, by norm_num [rawSeven]⟩,
   (process_deprocess_inverse rawSeven).2
     (fun _ _ _ => ⟨7, by norm_num, by norm_num [rawSeven]⟩)⟩

/-- Claim C10: `deprocess_image` mutates its argument in place, adding the
per-channel VGG means to the caller's array (so any non-empty argument is
changed), and its returned clipped uint8 array is derived from that mutated
array by channel reversal and clipping. -/
theorem deprocess_image_mutates_argument {H W : ℕ} (x : Pix H W) :
    (deprocess_image x).1 = (fun i j k => x i j k + vgg_means k) ∧
    (0 < H → 0 < W → (deprocess_image x).1 ≠ x) ∧
    (deprocess_image x).2 =
      (fun i j k => clip_to_uint8 ((deprocess_image x).1 i j (Fin.rev k))) := by
  refine ⟨rfl, ?_, rfl⟩
  intro hH hW heq
  have h2 := congrFun (congrFun (congrFun heq ⟨0, hH⟩) ⟨0, hW⟩) 0
  simp only [deprocess_image, vgg_means] at h2
  norm_num at h2

/-- Witness for C10 at a concrete non-empty array. -/
theorem deprocess_image_mutates_argument_witness :
    0 < 1 ∧ (deprocess_image pixZero).1 ≠ pixZero :=
  ⟨Nat.one_pos, (deprocess_image_mutates_argument pixZero).2.1 Nat.one_pos Nat.one_pos⟩

/-- Claim C6: `train` ignores its `content_image`/`style_image` parameters —
two calls differing only in those arguments (over arbitrary argument types)
return identical results, and the loop's initial generated tensor is loaded
from the fixed `CONFIG.CONTENT_IMAGE` path. -/
theorem train_ignores_image_arguments {Img OptState A B : Type}
    (env : NSTEnv Img OptState) (c1 c2 : A) (s1 s2 : B)
    (alpha beta lr : ℚ) (N : ℕ) :
    train env c1 s1 alpha beta N lr = train env c2 s2 alpha beta N lr ∧
    (trainInit env lr).generated_image = env.loadAndProcessImage CONFIG.CONTENT_IMAGE :=
  ⟨rfl, rfl⟩

/-- Claim C2 (amended): `train` with `Iterations = 0` returns an empty
snapshot list together with an empty loss history; the generated variable is
initialized to the preprocessed content image but is not returned. -/
theorem train_zero_iterations {Img OptState A B : Type} (env : NSTEnv Img OptState)
    (c : A) (s : B) (alpha beta lr : ℚ) :
    train env c s alpha beta 0 lr = ([], []) ∧
    (trainInit env lr).generated_image = env.loadAndProcessImage CONFIG.CONTENT_IMAGE :=
  ⟨rfl, rfl⟩

/-- Counterexample to C2 as stated: at `Iterations = 0` the first returned
component is the empty list — the content tensor (value 0 in `envA`) is not
among the returned images, so no generated tensor is returned at all. -/
theorem train_zero_iterations_cex :
    (train envA () () 10 40 0 5).1 = ([] : List ℚ) ∧
    envA.loadAndProcessImage CONFIG.CONTENT_IMAGE ∉ (train envA () () 10 40 0 5).1 ∧
    (train envA () () 10 40 0 5).2 = ([] : List ℚ) := by
  decide

/-- Claim C3 (amended): `train` performs no finiteness check and signals no
error: for every environment — including ones whose gradients are
non-finite — the loop performs exactly `Iterations` iterations and returns
normally with a full-length cost history. -/
theorem train_always_runs_all_iterations {Img OptState A B : Type}
    (env : NSTEnv Img OptState) (c : A) (s : B) (alpha beta lr : ℚ) (N : ℕ) :
    ((train env c s alpha beta N lr).2).length = N := by
  simp [train_eq_trainStateAt, trainStateAt_costs]

/-- Counterexample to C3 as stated: in `envDiv` the gradient is non-finite
(`none`) from iteration 0 on, so the generated tensor checkpointed at
iteration 0 is already non-finite — yet the run is not halted: a second
iteration is performed and two cost records are returned, with no error. -/
theorem train_divergence_no_halt_cex :
    (train envDiv () () 1 1 2 1).1 = [(none : Option ℚ)] ∧
    ((train envDiv () () 1 1 2 1).2).length = 2 := by
  decide

/-- Claim C1 (amended): for `N ≥ 1` the returned loss history has exactly `N`
records where the i-th record is the scalar `J_total` of iteration i (the
iteration index, `J_style` and `J_content` are not stored), and the snapshot
sequence has length `⌈N / 200⌉ = (N + 199) / 200`. -/
theorem train_history_and_snapshots {Img OptState A B : Type} (env : NSTEnv Img OptState)
    (c : A) (s : B) (alpha beta lr : ℚ) (N : ℕ) (h : 1 ≤ N) :
    ((train env c s alpha beta N lr).2).length = N ∧
    (train env c s alpha beta N lr).2 = (List.range N).map (J_total_at env alpha beta lr) ∧
    ((train env c s alpha beta N lr).1).length = (N + 199) / 200 := by
  refine ⟨?_, ?_, ?_⟩ <;>
    simp [train_eq_trainStateAt, trainStateAt_costs, trainStateAt_snapshots_length]

/-- Witness for C1 at `N = 1` in the concrete environment `envA`. -/
theorem train_history_and_snapshots_witness :
    1 ≤ 1 ∧
    (((train envA () () 1 0 1 1).2).length = 1 ∧
     (train envA () () 1 0 1 1).2 = (List.range 1).map (J_total_at envA 1 0 1) ∧
     ((train envA () () 1 0 1 1).1).length = (1 + 199) / 200) :=
  ⟨le_refl 1, train_history_and_snapshots envA () () 1 0 1 1 (le_refl 1)⟩

/-- Counterexample to C1 as stated: `envA` and `envB` have different
per-iteration `J_style` values at iteration 0, yet `train` returns identical
results (with `alpha = 1`, `beta = 0`) — so the returned records cannot
contain `(iteration, J_total, J_style, J_content)`: only the scalar `J_total`
is stored. -/
theorem train_history_scalar_records_cex :
    train envA () () 1 0 1 1 = train envB () () 1 0 1 1 ∧
    J_style_at envA 1 0 1 0 ≠ J_style_at envB 1 0 1 0 := by
  have hcpA : envA.loadAndProcessImage CONFIG.CONTENT_IMAGE = 0 := by decide
  have hspA : envA.loadAndProcessImage CONFIG.STYLE_IMAGE = 1 := by decide
  constructor
  · have hstate : ∀ n, trainStateAt envA 1 0 1 n = trainStateAt envB 1 0 1 n := by
      intro n
      induction n with
      | zero => rfl
      | succ k ih =>
        rw [trainStateAt_succ, trainStateAt_succ, ih]
        simp [trainStep, content_cost, envA, envB]
    rw [train_eq_trainStateAt, train_eq_trainStateAt, hstate 1]
  · have hA : J_style_at envA 1 0 1 0 = 4/5 := by
      have hg : (trainStateAt envA 1 0 1 0).generated_image = 0 := hcpA
      rw [J_style_at, hg, hspA, style_cost_eq_sum]
      have hcur : ∀ i : Fin 5, current_style_cost envA i 1 0 = 1/4 := by
        intro i
        have hsm1 : envA.style_model i (1 : ℚ) = fun _ _ _ => (1 : ℚ) := rfl
        have hsm0 : envA.style_model i (0 : ℚ) = fun _ _ _ => (0 : ℚ) := rfl
        have hsH : envA.sH i = 1 := rfl
        have hsW : envA.sW i = 1 := rfl
        have hsC : envA.sC i = 1 := rfl
        have e1 : ∀ a b, gram_matrix (matT (reshape_unroll (envA.style_model i (1 : ℚ)))) a b
            = 1 := by
          intro a b
          simp only [gram_matrix, matmul, matT, reshape_unroll, hsm1]
          simp [Finset.card_univ, hsH, hsW]
        have e0 : ∀ a b, gram_matrix (matT (reshape_unroll (envA.style_model i (0 : ℚ)))) a b
            = 0 := by
          intro a b
          simp only [gram_matrix, matmul, matT, reshape_unroll, hsm0]
          simp
        simp only [current_style_cost, e1, e0]
        rw [reduce_mean_mat]
        simp [Finset.card_univ, hsH, hsW, hsC]
      simp only [hcur]
      rw [Fin.sum_univ_five]
      norm_num [style_coeff]
    have hB : J_style_at envB 1 0 1 0 = 0 := by
      rw [J_style_at, style_cost_eq_sum]
      refine Finset.sum_eq_zero fun i _ => ?_
      rw [current_style_cost_zero envB i (envB.loadAndProcessImage CONFIG.STYLE_IMAGE)
        ((trainStateAt envB 1 0 1 0).generated_image) rfl, mul_zero]
    rw [hA, hB]
    norm_num
